import Mathlib

/-!
Shallow embedding of the microcluster cluster-membership recovery engine and
certificate-update handler, translated from:
  - internal/recover/recover.go
  - microcluster/app.go
  - the resources certificate endpoint (clusterCertificatesPut)

File contents are modelled by the inductive `FileData`: serialized YAML
documents are represented by their parsed structure, arbitrary files by a
byte list. Directories are association lists from file name to content.
-/

set_option autoImplicit false

namespace Microcluster

/-- dqlite node roles (go-dqlite `client.NodeRole`). -/
inductive NodeRole where
  | voter
  | standBy
  | spare
deriving DecidableEq, Repr

/-- `NodeRole.String()` from go-dqlite. -/
def NodeRole.toStr : NodeRole → String
  | .voter => "voter"
  | .standBy => "stand-by"
  | .spare => "spare"

/-- go-dqlite `client.NodeInfo`: one entry of the on-disk node list
(`cluster.yaml`) or of the per-node `info.yaml`. -/
structure NodeInfo where
  ID : Nat
  Address : String
  Role : NodeRole
deriving DecidableEq, Repr

/-- `cluster.DqliteMember`: a member as exposed to operators. -/
structure DqliteMember where
  DqliteID : Nat
  Address : String
  Role : String
  Name : String
deriving DecidableEq, Repr

/-- A trust store entry (`trust.Remote`), reduced to the fields the recovery
engine reads: the name and the rendered address. -/
structure Remote where
  Name : String
  Address : String
deriving DecidableEq, Repr

/-- Content of a file: YAML documents are carried in parsed form, anything
else as raw bytes. -/
inductive FileData where
  | raw (bytes : List Nat)
  | clusterYaml (nodes : List NodeInfo)
  | infoYaml (info : NodeInfo)
deriving DecidableEq, Repr

/-- A flat directory: file name ↦ content. -/
abbrev Dir : Type := List (String × FileData)

/-- Look a file up by name. -/
def Dir.lookup (d : Dir) (name : String) : Option FileData :=
  List.lookup name d

/-- `os.WriteFile`: create the file or overwrite its content. -/
def Dir.setFile (d : Dir) (name : String) (content : FileData) : Dir :=
  (name, content) :: List.filter (fun p => p.1 ≠ name) d

/-- File names present in a directory (`fs.Glob(dbFS, "*")`). -/
def Dir.names (d : Dir) : List String :=
  d.map Prod.fst

/-! ## ValidateMemberChanges (internal/recover/recover.go) -/

/-- The match test from the inner loop of `ValidateMemberChanges`:
same dqlite ID, same name and same address (the role may differ). -/
def memberMatches (newMember oldMember : DqliteMember) : Bool :=
  newMember.DqliteID == oldMember.DqliteID &&
    newMember.Name == oldMember.Name &&
    newMember.Address == oldMember.Address

/-- The outer loop of `ValidateMemberChanges`: each new member must match
some old member, otherwise the error names the offending member. -/
def validateMembersLoop (oldMembers : List DqliteMember) :
    List DqliteMember → Except String Unit
  | [] => .ok ()
  | newMember :: rest =>
    if oldMembers.any (memberMatches newMember) then
      validateMembersLoop oldMembers rest
    else
      .error ("ID or address changed for member " ++ newMember.Name)

/-- `ValidateMemberChanges`: reject any change of cluster membership other
than role changes. -/
def ValidateMemberChanges (oldMembers newMembers : List DqliteMember) :
    Except String Unit :=
  if newMembers.length ≠ oldMembers.length then
    .error "members cannot be added or removed"
  else
    validateMembersLoop oldMembers newMembers

/-! ## GetDqliteClusterMembers (internal/recover/recover.go) -/

/-- The nested loop of `GetDqliteClusterMembers`: join the trust store and the
node list on equal address, taking the name from the remote and the dqlite ID
and role from the node-list entry. -/
def GetDqliteClusterMembers (remotes : List Remote) (nodeInfo : List NodeInfo) :
    List DqliteMember :=
  remotes.flatMap (fun remote =>
    nodeInfo.filterMap (fun info =>
      if remote.Address == info.Address then
        some { DqliteID := info.ID, Address := info.Address,
               Role := info.Role.toStr, Name := remote.Name }
      else
        none))

/-! ## Tarballs (internal/recover/recover.go) -/

/-- `strings.Contains pat s` for the string checks of the handlers,
on the underlying character lists. -/
def containsSub (pat s : String) : Bool :=
  decide (pat.data <:+: s.data)

/-- One entry of a (gzipped) tar archive. `size` is the header's declared
size field (int64 in Go, so possibly out of sync with the data);
`writtenLen` is the number of bytes `io.Copy` actually extracts for the
entry. -/
structure TarEntry where
  name : String
  size : Int
  content : FileData
  writtenLen : Nat
deriving DecidableEq, Repr

/-- Error text of the CWE-22 check in `unpackTarball`. -/
def invalidSeqMsg (name : String) : String :=
  "Invalid sequence .. in recovery tarball entry " ++ name

/-- Error text of the size check in `unpackTarball`; it names the entry. -/
def sizeMismatchMsg (written : Nat) (size : Int) (name tarballPath : String) :
    String :=
  "mismatched written (" ++ toString written ++ ") and size (" ++
    toString size ++ ") for entry " ++ name ++ " in " ++ tarballPath

/-- The extraction loop of `unpackTarball`. Entries are processed in order;
an entry whose name contains `..` is rejected before its file is created;
otherwise the file is created (`os.Create` + `io.Copy`) and then the written
byte count is compared against the header size. Returns the files created so
far together with the first error, if any. -/
def unpackTarballLoop (tarballPath : String) (acc : Dir) :
    List TarEntry → Dir × Option String
  | [] => (acc, none)
  | e :: rest =>
    if containsSub ".." e.name then
      (acc, some (invalidSeqMsg e.name))
    else
      let acc' := acc.setFile e.name e.content
      if (e.writtenLen : Int) ≠ e.size then
        (acc', some (sizeMismatchMsg e.writtenLen e.size e.name tarballPath))
      else
        unpackTarballLoop tarballPath acc' rest

/-- `unpackTarball`: extract a recovery tarball into the (fresh) unpack
directory. The returned `Dir` is keyed by entry name, relative to the
destination root; the file's on-disk path is `path.Join(destRoot, name)`. -/
def unpackTarball (tarballPath : String) (entries : List TarEntry) :
    Dir × Option String :=
  unpackTarballLoop tarballPath [] entries

/-- Serialized length of a file's content, used to fill the tar header size
of archives the program itself creates (for those, the written byte count
equals the header size by construction). -/
def fileDataLen : FileData → Nat
  | .raw bytes => bytes.length
  | .clusterYaml nodes => nodes.length + 1
  | .infoYaml _ => 1

/-- `createTarball`: one archive entry per listed file, with `header.Name`
set to the file's name and the data copied in full. -/
def createTarball (dir : Dir) (files : List String) : List TarEntry :=
  files.filterMap (fun filename =>
    (dir.lookup filename).map (fun content =>
      { name := filename, size := (fileDataLen content : Int),
        content := content, writtenLen := fileDataLen content }))

/-- The exclusion loop of `CreateRecoveryTarball`: on the first occurrence of
`info.yaml`, overwrite its slot with the last element of the list, truncate
by one, and break. -/
def excludeInfoYaml (dbFiles : List String) : List String :=
  if "info.yaml" ∈ dbFiles then
    (dbFiles.set (dbFiles.indexOf "info.yaml")
        (dbFiles.getD (dbFiles.length - 1) "")).take (dbFiles.length - 1)
  else
    dbFiles

/-- `CreateRecoveryTarball`: archive every top-level file of the database
directory except `info.yaml`, at `recovery_db.tar.gz` in the state dir.
Returns the tarball path and the archive written there. -/
def CreateRecoveryTarball (databaseDir : Dir) : String × List TarEntry :=
  ("recovery_db.tar.gz", createTarball databaseDir (excludeInfoYaml databaseDir.names))

/-! ## Filesystem state and the recovery procedures -/

/-- The slice of the node's state directory the recovery engine touches.
`recoveryTarball` is the content of `recovery_db.tar.gz` when that file
exists; `unpackDir` is the sibling temporary directory `recovery_db`;
`backups` collects the `db_backup.<timestamp>.tar.gz` snapshots. -/
structure FS where
  trustRemotes : List Remote
  databaseDir : Dir
  recoveryTarball : Option (List TarEntry)
  unpackDir : Dir
  backups : List Dir

/-- `dumpYamlNodeStore` via go-dqlite's `NewYamlNodeStore`: a missing file
yields an empty node list; a file that does not parse as a node list is an
error. -/
def dumpYamlNodeStore (file : Option FileData) : Except String (List NodeInfo) :=
  match file with
  | none => .ok []
  | some (.clusterYaml nodes) => .ok nodes
  | some _ => .error "Failed to read from node store"

/-- `GetDqliteClusterMembers` as invoked on the filesystem: parse
`database/cluster.yaml` and the trust store, then join them on address. -/
def GetDqliteClusterMembersFS (fs : FS) : Except String (List DqliteMember) :=
  match dumpYamlNodeStore (fs.databaseDir.lookup "cluster.yaml") with
  | .error e => .error e
  | .ok nodeInfo => .ok (GetDqliteClusterMembers fs.trustRemotes nodeInfo)

/-- `CreateDatabaseBackup`: snapshot the database directory into a
`db_backup.<timestamp>.tar.gz` in the state dir. -/
def CreateDatabaseBackup (fs : FS) : FS :=
  { fs with backups := fs.backups ++ [fs.databaseDir] }

/-- Error text of the local-ID check in `MaybeUnpackRecoveryTarball`. -/
def missingLocalMemberMsg : String :=
  "missing local cluster member in incoming cluster.yaml"

/-- `MaybeUnpackRecoveryTarball`: if `recovery_db.tar.gz` exists in the state
dir, unpack it, check the incoming `cluster.yaml` contains the local dqlite
ID, write the local `info.yaml` into the unpacked directory, take a backup,
replace the database directory and delete the tarball. Returns the state
after the call and the error, if any. -/
def MaybeUnpackRecoveryTarball (fs : FS) : FS × Option String :=
  match fs.recoveryTarball with
  | none => (fs, none)
  | some entries =>
    let unpacked := unpackTarball "recovery_db.tar.gz" entries
    match unpacked.2 with
    | some e => ({ fs with unpackDir := unpacked.1 }, some e)
    | none =>
      match dumpYamlNodeStore (unpacked.1.lookup "cluster.yaml") with
      | .error e => ({ fs with unpackDir := unpacked.1 }, some e)
      | .ok incomingNodeInfo =>
        match fs.databaseDir.lookup "info.yaml" with
        | none =>
          ({ fs with unpackDir := unpacked.1 }, some "failed to read database/info.yaml")
        | some localInfoYaml =>
          match localInfoYaml with
          | .infoYaml localInfo =>
            if incomingNodeInfo.any (fun incomingInfo => localInfo.ID == incomingInfo.ID) then
              let unpacked' := unpacked.1.setFile "info.yaml" localInfoYaml
              let backedUp := CreateDatabaseBackup { fs with unpackDir := unpacked' }
              let replaced := { backedUp with databaseDir := unpacked' }
              let renamed := { replaced with unpackDir := ([] : Dir) }
              ({ renamed with recoveryTarball := none }, none)
            else
              ({ fs with unpackDir := unpacked.1 }, some missingLocalMemberMsg)
          | _ => ({ fs with unpackDir := unpacked.1 }, some "invalid database/info.yaml")

/-- `NodeRole` from its rendered string. -/
def NodeRole.fromStr : String → Option NodeRole
  | "voter" => some .voter
  | "stand-by" => some .standBy
  | "spare" => some .spare
  | _ => none

/-- An operator-supplied member as a node-list entry. -/
def dqliteMemberToNodeInfo (m : DqliteMember) : Option NodeInfo :=
  (NodeRole.fromStr m.Role).map (fun r =>
    { ID := m.DqliteID, Address := m.Address, Role := r })

/-- Modelled from the spec: `recover.RecoverFromQuorumLoss` (the internal
function invoked by `MicroCluster.RecoverFromQuorumLoss` after validation)
is not among the provided sources. Per §4.G steps 3-5 it takes a timestamped
backup of the database directory, rewrites the on-disk node list to the
supplied members, writes `recovery_db.tar.gz` and returns its path. -/
def RecoverFromQuorumLossInternal (fs : FS) (members : List DqliteMember) :
    FS × Except String String :=
  let backedUp := CreateDatabaseBackup fs
  match members.mapM dqliteMemberToNodeInfo with
  | none => (backedUp, .error "invalid member role")
  | some nodes =>
    let rewritten :=
      { backedUp with databaseDir := backedUp.databaseDir.setFile "cluster.yaml" (.clusterYaml nodes) }
    let tarball := CreateRecoveryTarball rewritten.databaseDir
    ({ rewritten with recoveryTarball := some tarball.2 }, .ok tarball.1)

/-- `MicroCluster.RecoverFromQuorumLoss` (microcluster/app.go): read the
current members, validate the requested changes, and only then run the
recovery rewrite. Returns the state after the call and the tarball path or
the error. -/
def RecoverFromQuorumLoss (fs : FS) (members : List DqliteMember) :
    FS × Except String String :=
  match GetDqliteClusterMembersFS fs with
  | .error e => (fs, .error e)
  | .ok oldMembers =>
    match ValidateMemberChanges oldMembers members with
    | .error e => (fs, .error e)
    | .ok _ => RecoverFromQuorumLossInternal fs members

/-! ## clusterCertificatesPut (resources certificate endpoint) -/

/-- `types.ClusterCertificatePut`: the request body. -/
structure ClusterCertificatePut where
  PublicKey : String
  PrivateKey : String
  CA : String
deriving DecidableEq, Repr

/-- One filesystem write the handler performs. The handler only ever uses
`os.WriteFile` straight to the final path (it has no temp-file-and-rename
step), so this is the only constructor its traces use. -/
inductive WStep where
  | writeFile (path : String) (content : String)
deriving DecidableEq, Repr

/-- The observable outcome of one `clusterCertificatesPut` call:
who the update was forwarded to, whether the database-offline warning was
logged, the local writes in order, whether the cluster cert was hot-reloaded,
and the HTTP response. -/
structure CertPutOutcome where
  forwardedTo : List String
  warnedDbOffline : Bool
  writes : List WStep
  reloadedClusterCert : Bool
  response : Except String Unit
deriving Repr

/-- The name validation of the handler: a certificate name may not contain a
path separator or `..`. -/
def certNameIsPath (name : String) : Bool :=
  containsSub "/" name || containsSub "\\" name || containsSub ".." name

/-- The part of `clusterCertificatesPut` after the forwarding step: PEM
validation, name validation, optional CA write, then the keypair writes, and
the cluster-cert hot reload. `pemOk` stands for `pem.Decode` succeeding and
`fwd` is who the request was already forwarded to. -/
def certPutLocal (pemOk : String → Bool) (warned : Bool) (fwd : List String)
    (certificateName : String) (req : ClusterCertificatePut) : CertPutOutcome :=
  if !pemOk req.PublicKey then
    { forwardedTo := fwd, warnedDbOffline := warned, writes := [],
      reloadedClusterCert := false,
      response := .error "Certificate must be base64 encoded PEM certificate" }
  else if !pemOk req.PrivateKey then
    { forwardedTo := fwd, warnedDbOffline := warned, writes := [],
      reloadedClusterCert := false,
      response := .error "Private key must be base64 encoded PEM key" }
  else if certNameIsPath certificateName then
    { forwardedTo := fwd, warnedDbOffline := warned, writes := [],
      reloadedClusterCert := false,
      response := .error "Certificate name cannot be a path" }
  else if req.CA ≠ "" && !pemOk req.CA then
    { forwardedTo := fwd, warnedDbOffline := warned, writes := [],
      reloadedClusterCert := false,
      response := .error "CA must be base64 encoded PEM key" }
  else
    let caWrites :=
      if req.CA ≠ "" then [WStep.writeFile (certificateName ++ ".ca") req.CA] else []
    { forwardedTo := fwd, warnedDbOffline := warned,
      writes := caWrites ++
        [WStep.writeFile (certificateName ++ ".crt") req.PublicKey,
         WStep.writeFile (certificateName ++ ".key") req.PrivateKey],
      reloadedClusterCert := certificateName == "cluster",
      response := .ok () }

/-- `clusterCertificatesPut`: if the request is not a replication
notification and the database is reachable, first fan the update out to
every other cluster member; if the database is unreachable, log a warning
and fall through to the local write only. `pemOk` stands for `pem.Decode`,
`isNotification` for `client.IsNotification(r)`, `dbOpen` for
`s.Database.IsOpen` succeeding, `forwardOk` for the fan-out query
succeeding, and `others` for the other cluster members. -/
def clusterCertificatesPut (pemOk : String → Bool)
    (isNotification dbOpen forwardOk : Bool) (others : List String)
    (certificateName : String) (req : ClusterCertificatePut) : CertPutOutcome :=
  let warned := !dbOpen
  if !isNotification && dbOpen then
    if forwardOk then
      certPutLocal pemOk warned others certificateName req
    else
      { forwardedTo := others, warnedDbOffline := warned, writes := [],
        reloadedClusterCert := false,
        response := .error ("Failed to update " ++ certificateName ++
          " certificate on peers") }
  else
    certPutLocal pemOk warned [] certificateName req

/-- Execute a list of writes against a directory of plain string files, with
an optional injected fault: `os.WriteFile` opens with `O_TRUNC`, so a write
that fails (index `failAt`) leaves its target file truncated and stops the
run. -/
def runWritesWithFault : Option Nat → List WStep → List (String × String) →
    List (String × String)
  | _, [], d => d
  | some 0, .writeFile path _ :: _, d =>
    (path, "") :: d.filter (fun p => p.1 ≠ path)
  | some (k + 1), .writeFile path content :: rest, d =>
    runWritesWithFault (some k) rest
      ((path, content) :: d.filter (fun p => p.1 ≠ path))
  | none, .writeFile path content :: rest, d =>
    runWritesWithFault none rest
      ((path, content) :: d.filter (fun p => p.1 ≠ path))

/-- The property `ValidateMemberChanges` enforces entry-wise. -/
def MemberKept (oldMembers : List DqliteMember) (n : DqliteMember) : Prop :=
  ∃ o ∈ oldMembers, n.DqliteID = o.DqliteID ∧ n.Name = o.Name ∧ n.Address = o.Address

instance (oldMembers : List DqliteMember) (n : DqliteMember) :
    Decidable (MemberKept oldMembers n) := by
  unfold MemberKept
  infer_instance

/-- The state after a successful restore from `entries`, keeping the local
`info.yaml` content. -/
def restoredFS (fs : FS) (entries : List TarEntry) (localInfoYaml : FileData) : FS :=
  { trustRemotes := fs.trustRemotes,
    databaseDir :=
      ((unpackTarball "recovery_db.tar.gz" entries).1).setFile "info.yaml" localInfoYaml,
    recoveryTarball := none,
    unpackDir := [],
    backups := fs.backups ++ [fs.databaseDir] }

/-! ## Concrete instances used by the witnesses -/

def wRemote : Remote := { Name := "n1", Address := "a1" }

def wNode : NodeInfo := { ID := 1, Address := "a1", Role := .voter }

def wNode2 : NodeInfo := { ID := 2, Address := "a2", Role := .spare }

def wMemberOld : DqliteMember :=
  { DqliteID := 1, Address := "a1", Role := "voter", Name := "n1" }

def wMemberBad : DqliteMember :=
  { DqliteID := 2, Address := "a1", Role := "voter", Name := "n1" }

def wFS1 : FS :=
  { trustRemotes := [wRemote],
    databaseDir := [("cluster.yaml", .clusterYaml [wNode]), ("info.yaml", .infoYaml wNode)],
    recoveryTarball := none,
    unpackDir := [],
    backups := [] }

def wBadEntry : TarEntry :=
  { name := "../foo", size := 1, content := .raw [7], writtenLen := 1 }

def wSizeEntry : TarEntry :=
  { name := "cluster.yaml", size := 5, content := .raw [7], writtenLen := 1 }

def wDbDir : Dir :=
  [("cluster.yaml", .clusterYaml [wNode]), ("info.yaml", .infoYaml wNode),
   ("metadata1", .raw [1])]

def wTar4 : TarEntry :=
  { name := "cluster.yaml", size := 2, content := .clusterYaml [wNode2], writtenLen := 2 }

def wFS4 : FS :=
  { trustRemotes := [wRemote],
    databaseDir := [("cluster.yaml", .clusterYaml [wNode]), ("info.yaml", .infoYaml wNode)],
    recoveryTarball := some [wTar4],
    unpackDir := [],
    backups := [] }

def wTar5 : TarEntry :=
  { name := "cluster.yaml", size := 2, content := .clusterYaml [wNode], writtenLen := 2 }

def wFS5 : FS :=
  { trustRemotes := [wRemote],
    databaseDir := [("cluster.yaml", .clusterYaml [wNode]), ("info.yaml", .infoYaml wNode)],
    recoveryTarball := some [wTar5],
    unpackDir := [],
    backups := [] }

def wFS8 : FS :=
  { trustRemotes := [],
    databaseDir := [],
    recoveryTarball := none,
    unpackDir := [],
    backups := [] }

def wReq : ClusterCertificatePut :=
  { PublicKey := "PUB", PrivateKey := "PRIV", CA := "" }

/-! ## Lemmas about member validation -/

@[simp] theorem Dir.lookup_setFile_self (d : Dir) (name : String) (c : FileData) :
    (d.setFile name c).lookup name = some c := by
  simp [Dir.lookup, Dir.setFile, List.lookup]

theorem Dir.lookup_setFile_ne (d : Dir) (name m : String) (c : FileData)
    (h : m ≠ name) : (d.setFile name c).lookup m = d.lookup m := by
  have hmn : (m == name) = false := beq_eq_false_iff_ne.mpr h
  induction d with
  | nil =>
      simp [Dir.lookup, Dir.setFile, List.lookup, hmn]
  | cons p t ih =>
      by_cases hp : p.1 = name
      · have hmp : (m == p.1) = false := beq_eq_false_iff_ne.mpr (by rw [hp]; exact h)
        simpa [Dir.lookup, Dir.setFile, List.filter_cons, List.lookup, hp, hmn, hmp]
          using ih
      · by_cases hm : m = p.1
        · have hmp : (m == p.1) = true := beq_iff_eq.mpr hm
          simp [Dir.lookup, Dir.setFile, List.filter_cons, List.lookup, hp, hmn, hmp]
        · have hmp : (m == p.1) = false := beq_eq_false_iff_ne.mpr hm
          simpa [Dir.lookup, Dir.setFile, List.filter_cons, List.lookup, hp, hmn, hmp]
            using ih


theorem memberMatches_eq_true_iff (n o : DqliteMember) :
    memberMatches n o = true ↔
      n.DqliteID = o.DqliteID ∧ n.Name = o.Name ∧ n.Address = o.Address := by
  simp [memberMatches, and_assoc]

theorem validateMembersLoop_ok_iff (oldMembers newMembers : List DqliteMember) :
    validateMembersLoop oldMembers newMembers = .ok () ↔
      ∀ n ∈ newMembers, MemberKept oldMembers n := by
  induction newMembers with
  | nil => simp [validateMembersLoop]
  | cons n rest ih =>
    by_cases h : oldMembers.any (memberMatches n)
    · have hn : MemberKept oldMembers n := by
        obtain ⟨o, ho, hm⟩ := List.any_eq_true.mp h
        exact ⟨o, ho, (memberMatches_eq_true_iff n o).mp hm⟩
      simp [validateMembersLoop, h, ih, hn]
    · have hn : ¬MemberKept oldMembers n := by
        intro ⟨o, ho, hm⟩
        exact h (List.any_eq_true.mpr ⟨o, ho, (memberMatches_eq_true_iff n o).mpr hm⟩)
      simp [validateMembersLoop, h, hn]

theorem ValidateMemberChanges_ok_iff (oldMembers newMembers : List DqliteMember) :
    ValidateMemberChanges oldMembers newMembers = .ok () ↔
      (newMembers.length = oldMembers.length ∧
        ∀ n ∈ newMembers, MemberKept oldMembers n) := by
  by_cases h : newMembers.length = oldMembers.length
  · simp [ValidateMemberChanges, h, validateMembersLoop_ok_iff]
  · simp [ValidateMemberChanges, h]

theorem ValidateMemberChanges_not_ok (oldMembers newMembers : List DqliteMember)
    (h : ValidateMemberChanges oldMembers newMembers ≠ .ok ()) :
    ∃ e, ValidateMemberChanges oldMembers newMembers = .error e := by
  cases hv : ValidateMemberChanges oldMembers newMembers with
  | error e => exact ⟨e, rfl⟩
  | ok u => cases u; exact absurd hv h

/-- C1. `ValidateMemberChanges` accepts exactly the member lists of the same
length whose every entry matches an existing entry on dqlite ID, name and
address; on any other list `MicroCluster.RecoverFromQuorumLoss` returns an
error with the filesystem state unchanged (no backup, no node-list rewrite,
no tarball). -/
theorem c1_validate_member_changes (fs : FS)
    (oldMembers newMembers : List DqliteMember)
    (hold : GetDqliteClusterMembersFS fs = .ok oldMembers) :
    (ValidateMemberChanges oldMembers newMembers = .ok () ↔
      (newMembers.length = oldMembers.length ∧
        ∀ n ∈ newMembers, MemberKept oldMembers n)) ∧
    (¬(newMembers.length = oldMembers.length ∧
        ∀ n ∈ newMembers, MemberKept oldMembers n) →
      (RecoverFromQuorumLoss fs newMembers).1 = fs ∧
        ∃ e, (RecoverFromQuorumLoss fs newMembers).2 = .error e) := by
  refine ⟨ValidateMemberChanges_ok_iff oldMembers newMembers, fun hbad => ?_⟩
  have hne : ValidateMemberChanges oldMembers newMembers ≠ .ok () := by
    intro h
    exact hbad ((ValidateMemberChanges_ok_iff oldMembers newMembers).mp h)
  obtain ⟨e, he⟩ := ValidateMemberChanges_not_ok oldMembers newMembers hne
  have hrun : RecoverFromQuorumLoss fs newMembers = (fs, .error e) := by
    simp only [RecoverFromQuorumLoss, hold, he]
  rw [hrun]
  exact ⟨rfl, e, rfl⟩

/-- C10. `GetDqliteClusterMembers` returns exactly the address join of the
trust store and the node list: the name from the remote, the dqlite ID, the
address and the role from the node-list entry; unmatched entries on either
side are dropped without error. -/
theorem c10_get_dqlite_cluster_members_join (remotes : List Remote)
    (nodeInfo : List NodeInfo) (m : DqliteMember) :
    m ∈ GetDqliteClusterMembers remotes nodeInfo ↔
      ∃ r ∈ remotes, ∃ i ∈ nodeInfo, r.Address = i.Address ∧
        m = { DqliteID := i.ID, Address := i.Address,
              Role := i.Role.toStr, Name := r.Name } := by
  simp only [GetDqliteClusterMembers, List.mem_flatMap, List.mem_filterMap]
  constructor
  · rintro ⟨r, hr, i, hi, hif⟩
    by_cases h : r.Address = i.Address
    · rw [if_pos (beq_iff_eq.mpr h)] at hif
      exact ⟨r, hr, i, hi, h, (Option.some.injEq _ _).mp hif.symm⟩
    · rw [if_neg (fun hb => h (beq_iff_eq.mp hb))] at hif
      cases hif
  · rintro ⟨r, hr, i, hi, haddr, rfl⟩
    exact ⟨r, hr, i, hi, by rw [if_pos (beq_iff_eq.mpr haddr)]⟩

/-! ## Lemmas about tarball unpacking -/

theorem mem_setFile {kv : String × FileData} (d : Dir) (name : String)
    (c : FileData) (h : kv ∈ d.setFile name c) : kv = (name, c) ∨ kv ∈ d := by
  rcases List.mem_cons.mp h with h' | h'
  · exact Or.inl h'
  · exact Or.inr (List.mem_filter.mp h').1

theorem unpackTarballLoop_mem (tp : String) (entries : List TarEntry) :
    ∀ acc : Dir, ∀ kv ∈ (unpackTarballLoop tp acc entries).1,
      kv ∈ acc ∨ ∃ e ∈ entries, containsSub ".." e.name = false ∧
        e.name = kv.1 ∧ e.content = kv.2 := by
  induction entries with
  | nil =>
    intro acc kv hkv
    exact Or.inl hkv
  | cons e rest ih =>
    intro acc kv hkv
    by_cases hdot : containsSub ".." e.name
    · rw [unpackTarballLoop, if_pos hdot] at hkv
      exact Or.inl hkv
    · rw [unpackTarballLoop, if_neg hdot] at hkv
      by_cases hsz : (e.writtenLen : Int) ≠ e.size
      · rw [if_pos hsz] at hkv
        rcases mem_setFile acc e.name e.content hkv with h' | h'
        · exact Or.inr ⟨e, List.mem_cons_self e rest, Bool.eq_false_iff.mpr hdot, by rw [h'], by rw [h']⟩
        · exact Or.inl h'
      · rw [if_neg hsz] at hkv
        rcases ih (acc.setFile e.name e.content) kv hkv with h' | ⟨e', he', hc, hn, hco⟩
        · rcases mem_setFile acc e.name e.content h' with h'' | h''
          · refine Or.inr ⟨e, List.mem_cons_self e rest, ?_, by rw [h''], by rw [h'']⟩
            exact Bool.eq_false_iff.mpr hdot
          · exact Or.inl h''
        · exact Or.inr ⟨e', List.mem_cons_of_mem e he', hc, hn, hco⟩

theorem unpackTarballLoop_err_of_dotdot (tp : String) (entries : List TarEntry) :
    ∀ acc : Dir, (∃ e ∈ entries, containsSub ".." e.name = true) →
      ((unpackTarballLoop tp acc entries).2).isSome = true := by
  induction entries with
  | nil =>
    intro acc h
    simp at h
  | cons e rest ih =>
    intro acc h
    by_cases hdot : containsSub ".." e.name
    · rw [unpackTarballLoop, if_pos hdot]
      rfl
    · rw [unpackTarballLoop, if_neg hdot]
      by_cases hsz : (e.writtenLen : Int) ≠ e.size
      · rw [if_pos hsz]
        rfl
      · rw [if_neg hsz]
        apply ih
        rcases h with ⟨e', he', hd⟩
        rcases List.mem_cons.mp he' with rfl | he''
        · exact absurd hd hdot
        · exact ⟨e', he'', hd⟩

theorem unpackTarballLoop_err_of_mismatch (tp : String) (entries : List TarEntry) :
    ∀ acc : Dir, (∃ e ∈ entries, (e.writtenLen : Int) ≠ e.size) →
      ((unpackTarballLoop tp acc entries).2).isSome = true := by
  induction entries with
  | nil =>
    intro acc h
    simp at h
  | cons e rest ih =>
    intro acc h
    by_cases hdot : containsSub ".." e.name
    · rw [unpackTarballLoop, if_pos hdot]
      rfl
    · rw [unpackTarballLoop, if_neg hdot]
      by_cases hsz : (e.writtenLen : Int) ≠ e.size
      · rw [if_pos hsz]
        rfl
      · rw [if_neg hsz]
        apply ih
        rcases h with ⟨e', he', hd⟩
        rcases List.mem_cons.mp he' with rfl | he''
        · exact absurd hd hsz
        · exact ⟨e', he'', hd⟩

theorem unpackTarballLoop_first_mismatch (tp : String) (e : TarEntry)
    (hdot : containsSub ".." e.name = false)
    (hsz : (e.writtenLen : Int) ≠ e.size) :
    ∀ pre : List TarEntry, ∀ post : List TarEntry, ∀ acc : Dir,
      (∀ p ∈ pre, containsSub ".." p.name = false ∧ (p.writtenLen : Int) = p.size) →
      (unpackTarballLoop tp acc (pre ++ e :: post)).2 =
        some (sizeMismatchMsg e.writtenLen e.size e.name tp) := by
  intro pre
  induction pre with
  | nil =>
    intro post acc _
    rw [List.nil_append, unpackTarballLoop, if_neg (Bool.eq_false_iff.mp hdot ∘ id), if_pos hsz]
  | cons p rest ih =>
    intro post acc hpre
    have hp := hpre p (List.mem_cons_self p rest)
    rw [List.cons_append, unpackTarballLoop, if_neg (Bool.eq_false_iff.mp hp.1 ∘ id),
      if_neg (fun hne => hne hp.2)]
    exact ih post (acc.setFile p.name p.content) (fun q hq => hpre q (List.mem_cons_of_mem p hq))

/-- C2. Unpacking rejects, with an error, any tarball entry whose name
contains `..`; no file whose name contains `..` is ever created (the reject
happens before `os.Create`), and every file the unpack run does create is
the verbatim content of some entry with a `..`-free name, placed under the
unpack directory at that name. -/
theorem c2_unpack_rejects_path_traversal (tp : String) (entries : List TarEntry) :
    ((∃ e ∈ entries, containsSub ".." e.name = true) →
      ((unpackTarball tp entries).2).isSome = true) ∧
    (∀ kv ∈ (unpackTarball tp entries).1,
      containsSub ".." kv.1 = false ∧
        ∃ e ∈ entries, e.name = kv.1 ∧ e.content = kv.2) := by
  constructor
  · exact unpackTarballLoop_err_of_dotdot tp entries []
  · intro kv hkv
    rcases unpackTarballLoop_mem tp entries [] kv hkv with h | ⟨e, he, hc, hn, hco⟩
    · cases h
    · exact ⟨hn ▸ hc, e, he, hn, hco⟩

/-- C9. If any entry's extracted byte count differs from its header size the
unpack fails, and when extraction reaches such an entry (all earlier entries
clean and size-consistent) the error is the size-mismatch error naming that
entry. -/
theorem c9_unpack_size_mismatch (tp : String) (pre post : List TarEntry) (e : TarEntry) :
    ((∃ x ∈ pre ++ e :: post, (x.writtenLen : Int) ≠ x.size) →
      ((unpackTarball tp (pre ++ e :: post)).2).isSome = true) ∧
    ((∀ p ∈ pre, containsSub ".." p.name = false ∧ (p.writtenLen : Int) = p.size) →
      containsSub ".." e.name = false → (e.writtenLen : Int) ≠ e.size →
      (unpackTarball tp (pre ++ e :: post)).2 =
        some (sizeMismatchMsg e.writtenLen e.size e.name tp)) := by
  constructor
  · exact unpackTarballLoop_err_of_mismatch tp (pre ++ e :: post) []
  · intro hpre hdot hsz
    exact unpackTarballLoop_first_mismatch tp e hdot hsz pre post [] hpre

/-! ## Lemmas about tarball creation -/

theorem cons_getD_take_perm (l : List String) (h : l ≠ []) :
    (l.getD (l.length - 1) "" :: l.take (l.length - 1)).Perm l := by
  rcases List.eq_nil_or_concat l with rfl | ⟨init, x, rfl⟩
  · exact absurd rfl h
  · rw [List.concat_eq_append]
    have hlen : (init ++ [x]).length - 1 = init.length := by simp
    rw [hlen, List.getD_append_right init [x] "" init.length (le_refl _),
      Nat.sub_self, List.getD_cons_zero, List.take_left]
    exact (List.perm_append_singleton x init).symm

theorem excludeInfoYaml_perm (l : List String) :
    (excludeInfoYaml l).Perm (l.erase "info.yaml") := by
  induction l with
  | nil => simp [excludeInfoYaml]
  | cons a t ih =>
    by_cases ha : a = "info.yaml"
    · subst ha
      rw [List.erase_cons_head]
      have hmem : "info.yaml" ∈ "info.yaml" :: t := List.mem_cons_self _ _
      rw [excludeInfoYaml, if_pos hmem, List.indexOf_cons_self]
      cases t with
      | nil => simp
      | cons b t' =>
        have h1 : ("info.yaml" :: b :: t').length - 1 = (b :: t').length := rfl
        rw [h1, List.set_cons_zero,
          show (b :: t').length = t'.length + 1 from rfl, List.getD_cons_succ,
          List.take_succ_cons]
        exact cons_getD_take_perm (b :: t') (List.cons_ne_nil b t')
    · have hba : ¬(a == "info.yaml") = true := by simpa using ha
      by_cases hm : "info.yaml" ∈ t
      · cases t with
        | nil => simp at hm
        | cons c t'' =>
          have hmem : "info.yaml" ∈ a :: c :: t'' := List.mem_cons_of_mem a hm
          rw [excludeInfoYaml, if_pos hmem, List.indexOf_cons_ne _ ha,
            List.erase_cons_tail hba]
          have h1 : (a :: c :: t'').length - 1 = t''.length + 1 := rfl
          rw [h1, List.getD_cons_succ,
            show Nat.succ (List.indexOf "info.yaml" (c :: t'')) =
              List.indexOf "info.yaml" (c :: t'') + 1 from rfl,
            List.set_cons_succ, List.take_succ_cons]
          have hx : excludeInfoYaml (c :: t'') =
              ((c :: t'').set (List.indexOf "info.yaml" (c :: t''))
                ((c :: t'').getD ((c :: t'').length - 1) "")).take
                ((c :: t'').length - 1) := by
            rw [excludeInfoYaml, if_pos hm]
          rw [show ((c :: t'').length - 1) = t''.length from rfl] at hx
          exact List.Perm.cons a (hx ▸ ih)
      · have hnm : "info.yaml" ∉ a :: t := by
          intro hc
          rcases List.mem_cons.mp hc with hc' | hc'
          · exact ha hc'.symm
          · exact hm hc'
        rw [excludeInfoYaml, if_neg hnm, List.erase_cons_tail hba,
          List.erase_of_not_mem hm]

theorem mem_names_iff_lookup_isSome (d : Dir) (f : String) :
    f ∈ d.names ↔ (d.lookup f).isSome = true := by
  induction d with
  | nil => simp [Dir.names, Dir.lookup, List.lookup]
  | cons p t ih =>
    by_cases hp : f = p.1
    · have : (f == p.1) = true := beq_iff_eq.mpr hp
      simp [Dir.names, Dir.lookup, List.lookup, hp, this]
    · have : (f == p.1) = false := beq_eq_false_iff_ne.mpr hp
      simp [Dir.names, Dir.lookup, List.lookup, hp, this, ih]

theorem createTarball_names (dir : Dir) (files : List String)
    (h : ∀ f ∈ files, (dir.lookup f).isSome = true) :
    (createTarball dir files).map TarEntry.name = files := by
  induction files with
  | nil => rfl
  | cons f rest ih =>
    obtain ⟨c, hc⟩ := Option.isSome_iff_exists.mp (h f (List.mem_cons_self f rest))
    rw [createTarball, List.filterMap_cons]
    rw [hc]
    simpa [createTarball] using ih (fun g hg => h g (List.mem_cons_of_mem f hg))

/-- C3. The recovery tarball never contains an entry named `info.yaml`, and
contains an entry for every other top-level file of the database directory
(file names in a directory are distinct). -/
theorem c3_create_recovery_tarball_excludes_info_yaml (databaseDir : Dir)
    (hnodup : databaseDir.names.Nodup) :
    "info.yaml" ∉ (CreateRecoveryTarball databaseDir).2.map TarEntry.name ∧
    ∀ f, f ≠ "info.yaml" →
      (f ∈ (CreateRecoveryTarball databaseDir).2.map TarEntry.name ↔
        f ∈ databaseDir.names) := by
  have hsub : ∀ f ∈ excludeInfoYaml databaseDir.names, f ∈ databaseDir.names :=
    fun f hf =>
      List.erase_subset _ _ ((excludeInfoYaml_perm _).mem_iff.mp hf)
  have hlookup : ∀ f ∈ excludeInfoYaml databaseDir.names,
      (databaseDir.lookup f).isSome = true :=
    fun f hf => (mem_names_iff_lookup_isSome _ _).mp (hsub f hf)
  have hnames : (CreateRecoveryTarball databaseDir).2.map TarEntry.name =
      excludeInfoYaml databaseDir.names := by
    simpa only [CreateRecoveryTarball] using
      createTarball_names databaseDir (excludeInfoYaml databaseDir.names) hlookup
  rw [hnames]
  constructor
  · intro hmemYaml
    exact hnodup.not_mem_erase ((excludeInfoYaml_perm _).mem_iff.mp hmemYaml)
  · intro f hf
    rw [(excludeInfoYaml_perm _).mem_iff, List.mem_erase_of_ne hf]

/-! ## Lemmas about MaybeUnpackRecoveryTarball -/

theorem maybeUnpack_none_of_no_tarball (fs : FS) (hrec : fs.recoveryTarball = none) :
    MaybeUnpackRecoveryTarball fs = (fs, none) := by
  simp only [MaybeUnpackRecoveryTarball, hrec]

theorem maybeUnpack_success_cases (fs : FS)
    (hok : (MaybeUnpackRecoveryTarball fs).2 = none) :
    (fs.recoveryTarball = none ∧ MaybeUnpackRecoveryTarball fs = (fs, none)) ∨
    (∃ entries localInfoYaml,
      fs.recoveryTarball = some entries ∧
      fs.databaseDir.lookup "info.yaml" = some localInfoYaml ∧
      MaybeUnpackRecoveryTarball fs = (restoredFS fs entries localInfoYaml, none)) := by
  cases hrec : fs.recoveryTarball with
  | none => exact Or.inl ⟨rfl, maybeUnpack_none_of_no_tarball fs hrec⟩
  | some entries =>
    cases hu : (unpackTarball "recovery_db.tar.gz" entries).2 with
    | some e =>
      simp only [MaybeUnpackRecoveryTarball, hrec, hu] at hok
      exact Option.noConfusion hok
    | none =>
      cases hin : dumpYamlNodeStore
          (((unpackTarball "recovery_db.tar.gz" entries).1).lookup "cluster.yaml") with
      | error e =>
        simp only [MaybeUnpackRecoveryTarball, hrec, hu, hin] at hok
        exact Option.noConfusion hok
      | ok incoming =>
        cases hloc : fs.databaseDir.lookup "info.yaml" with
        | none =>
          simp only [MaybeUnpackRecoveryTarball, hrec, hu, hin, hloc] at hok
          exact Option.noConfusion hok
        | some fd =>
          cases fd with
          | raw bytes =>
            simp only [MaybeUnpackRecoveryTarball, hrec, hu, hin, hloc] at hok
            exact Option.noConfusion hok
          | clusterYaml nodes =>
            simp only [MaybeUnpackRecoveryTarball, hrec, hu, hin, hloc] at hok
            exact Option.noConfusion hok
          | infoYaml localInfo =>
            cases hfound : incoming.any (fun incomingInfo => localInfo.ID == incomingInfo.ID) with
            | false =>
              simp only [MaybeUnpackRecoveryTarball, hrec, hu, hin, hloc, hfound,
                Bool.false_eq_true, if_false] at hok
              exact Option.noConfusion hok
            | true =>
              refine Or.inr ⟨entries, .infoYaml localInfo, rfl, rfl, ?_⟩
              simp only [MaybeUnpackRecoveryTarball, hrec, hu, hin, hloc, hfound, if_true,
                CreateDatabaseBackup, restoredFS]

/-- C4. If the local node's dqlite ID (from the local `info.yaml`) is not
among the IDs of the unpacked `cluster.yaml` node list, the restore fails
with the missing-local-member error and the database directory is left
untouched. -/
theorem c4_restore_requires_local_id (fs : FS) (entries : List TarEntry)
    (incoming : List NodeInfo) (localInfo : NodeInfo)
    (hrec : fs.recoveryTarball = some entries)
    (hu : (unpackTarball "recovery_db.tar.gz" entries).2 = none)
    (hin : dumpYamlNodeStore
      (((unpackTarball "recovery_db.tar.gz" entries).1).lookup "cluster.yaml") =
        .ok incoming)
    (hloc : fs.databaseDir.lookup "info.yaml" = some (.infoYaml localInfo))
    (hmiss : ∀ i ∈ incoming, localInfo.ID ≠ i.ID) :
    (MaybeUnpackRecoveryTarball fs).2 = some missingLocalMemberMsg ∧
    ((MaybeUnpackRecoveryTarball fs).1).databaseDir = fs.databaseDir := by
  have hfound : (incoming.any fun incomingInfo => localInfo.ID == incomingInfo.ID) = false := by
    rw [List.any_eq_false]
    intro i hi
    simpa using hmiss i hi
  simp only [MaybeUnpackRecoveryTarball, hrec, hu, hin, hloc, hfound,
    Bool.false_eq_true, if_false]
  exact ⟨trivial, trivial⟩

/-- C5. Any successful `MaybeUnpackRecoveryTarball` run leaves the local
`info.yaml` content of the database directory exactly as it was before the
call: after a restore the unpacked directory carries the verbatim bytes of
the local `info.yaml`, so the node's dqlite ID and address are preserved. -/
theorem c5_restore_preserves_local_info_yaml (fs : FS)
    (hok : (MaybeUnpackRecoveryTarball fs).2 = none) :
    ((MaybeUnpackRecoveryTarball fs).1).databaseDir.lookup "info.yaml" =
      fs.databaseDir.lookup "info.yaml" := by
  rcases maybeUnpack_success_cases fs hok with ⟨_, heq⟩ |
    ⟨entries, localInfoYaml, _, hloc, heq⟩
  · rw [heq]
  · rw [heq]
    simp only [restoredFS]
    rw [Dir.lookup_setFile_self, hloc]

/-- C8. With no recovery tarball in the state directory the call is a no-op
returning success; any successful call leaves no recovery tarball behind;
hence running the startup check twice unpacks at most once (the second run
is a no-op). -/
theorem c8_unpack_idempotent (fs : FS) :
    (fs.recoveryTarball = none → MaybeUnpackRecoveryTarball fs = (fs, none)) ∧
    ((MaybeUnpackRecoveryTarball fs).2 = none →
      ((MaybeUnpackRecoveryTarball fs).1).recoveryTarball = none) ∧
    ((MaybeUnpackRecoveryTarball fs).2 = none →
      MaybeUnpackRecoveryTarball ((MaybeUnpackRecoveryTarball fs).1) =
        ((MaybeUnpackRecoveryTarball fs).1, none)) := by
  refine ⟨maybeUnpack_none_of_no_tarball fs, ?_, ?_⟩
  · intro hok
    rcases maybeUnpack_success_cases fs hok with ⟨hn, heq⟩ |
      ⟨entries, localInfoYaml, _, _, heq⟩
    · rw [heq]
      exact hn
    · rw [heq]
      rfl
  · intro hok
    apply maybeUnpack_none_of_no_tarball
    rcases maybeUnpack_success_cases fs hok with ⟨hn, heq⟩ |
      ⟨entries, localInfoYaml, _, _, heq⟩
    · rw [heq]
      exact hn
    · rw [heq]
      rfl

/-! ## Lemmas about the certificate handler -/

theorem certPutLocal_warned_fwd (pemOk : String → Bool) (warned : Bool)
    (fwd : List String) (certificateName : String) (req : ClusterCertificatePut) :
    (certPutLocal pemOk warned fwd certificateName req).warnedDbOffline = warned ∧
    (certPutLocal pemOk warned fwd certificateName req).forwardedTo = fwd := by
  unfold certPutLocal
  split_ifs <;> exact ⟨rfl, rfl⟩

theorem certPutLocal_writes (pemOk : String → Bool) (warned : Bool)
    (fwd : List String) (certificateName : String) (req : ClusterCertificatePut)
    (hpub : pemOk req.PublicKey = true) (hpriv : pemOk req.PrivateKey = true)
    (hname : certNameIsPath certificateName = false)
    (hca : req.CA = "" ∨ pemOk req.CA = true) :
    (certPutLocal pemOk warned fwd certificateName req).writes =
      (if req.CA ≠ "" then [WStep.writeFile (certificateName ++ ".ca") req.CA] else []) ++
        [WStep.writeFile (certificateName ++ ".crt") req.PublicKey,
         WStep.writeFile (certificateName ++ ".key") req.PrivateKey] := by
  have hcab : (req.CA ≠ "" && !pemOk req.CA) = false := by
    rcases hca with h | h
    · simp [h]
    · simp [h]
  unfold certPutLocal
  rw [if_neg (by simp [hpub]), if_neg (by simp [hpriv]), if_neg (by simp [hname]),
    if_neg (by rw [hcab]; simp)]

/-- C7. The forwarding rule of the certificate handler: with the database
unreachable the handler logs the offline warning and forwards to nobody
(writing only locally); with the database reachable and the request not a
replication notification, it forwards to every other cluster member; and in
the database-unreachable case a well-formed request still gets its keypair
written locally. -/
theorem c7_cert_put_forwarding (pemOk : String → Bool)
    (isNotification dbOpen forwardOk : Bool) (others : List String)
    (certificateName : String) (req : ClusterCertificatePut) :
    (dbOpen = false →
      (clusterCertificatesPut pemOk isNotification dbOpen forwardOk others
        certificateName req).warnedDbOffline = true ∧
      (clusterCertificatesPut pemOk isNotification dbOpen forwardOk others
        certificateName req).forwardedTo = []) ∧
    (isNotification = false → dbOpen = true →
      (clusterCertificatesPut pemOk isNotification dbOpen forwardOk others
        certificateName req).forwardedTo = others) ∧
    (dbOpen = false → pemOk req.PublicKey = true → pemOk req.PrivateKey = true →
      certNameIsPath certificateName = false → (req.CA = "" ∨ pemOk req.CA = true) →
      (clusterCertificatesPut pemOk isNotification dbOpen forwardOk others
        certificateName req).writes =
        (if req.CA ≠ "" then [WStep.writeFile (certificateName ++ ".ca") req.CA] else []) ++
          [WStep.writeFile (certificateName ++ ".crt") req.PublicKey,
           WStep.writeFile (certificateName ++ ".key") req.PrivateKey]) := by
  refine ⟨?_, ?_, ?_⟩
  · intro h
    subst h
    simpa [clusterCertificatesPut] using
      certPutLocal_warned_fwd pemOk true [] certificateName req
  · intro hn h
    subst hn h
    cases forwardOk with
    | false => simp [clusterCertificatesPut]
    | true =>
      simpa [clusterCertificatesPut] using
        (certPutLocal_warned_fwd pemOk false others certificateName req).2
  · intro h hpub hpriv hname hca
    subst h
    simpa [clusterCertificatesPut] using
      certPutLocal_writes pemOk true [] certificateName req hpub hpriv hname hca

theorem lookup_filter_ne {β : Type} (x m : String) (h : m ≠ x) :
    ∀ l : List (String × β),
      List.lookup m (l.filter (fun p => p.1 ≠ x)) = List.lookup m l := by
  intro l
  induction l with
  | nil => simp
  | cons p t ih =>
    by_cases hp : p.1 = x
    · have hmp : (m == p.1) = false := beq_eq_false_iff_ne.mpr (by rw [hp]; exact h)
      have hmx : (m == x) = false := beq_eq_false_iff_ne.mpr h
      simpa [List.filter_cons, List.lookup, hp, hmp, hmx] using ih
    · by_cases hm : m = p.1
      · have hmp : (m == p.1) = true := beq_iff_eq.mpr hm
        simp [List.filter_cons, List.lookup, hp, hmp]
      · have hmp : (m == p.1) = false := beq_eq_false_iff_ne.mpr hm
        simpa [List.filter_cons, List.lookup, hp, hmp] using ih

theorem append_ne_of_ne_suffix (s : String) {t u : String} (h : t ≠ u) :
    s ++ t ≠ s ++ u := by
  intro he
  have hd := congrArg String.data he
  rw [String.data_append, String.data_append] at hd
  exact h (String.ext (List.append_cancel_left hd))

/-- C6 (amended). The certificate handler writes `<name>.crt` and
`<name>.key` with plain in-place `os.WriteFile` calls to their final paths —
there is no temp-file-and-rename step — and a fault-free run leaves both
files holding the new keypair. (The atomicity claimed by the spec fails: see
the counterexample, where a fault during the first write truncates the
previous certificate.) -/
theorem c6_cert_put_writes_in_place (pemOk : String → Bool)
    (certificateName : String) (req : ClusterCertificatePut)
    (d : List (String × String))
    (hpub : pemOk req.PublicKey = true) (hpriv : pemOk req.PrivateKey = true)
    (hname : certNameIsPath certificateName = false) (hca : req.CA = "") :
    (clusterCertificatesPut pemOk true false true [] certificateName req).writes =
      [WStep.writeFile (certificateName ++ ".crt") req.PublicKey,
       WStep.writeFile (certificateName ++ ".key") req.PrivateKey] ∧
    List.lookup (certificateName ++ ".crt")
      (runWritesWithFault none
        (clusterCertificatesPut pemOk true false true [] certificateName req).writes d) =
      some req.PublicKey ∧
    List.lookup (certificateName ++ ".key")
      (runWritesWithFault none
        (clusterCertificatesPut pemOk true false true [] certificateName req).writes d) =
      some req.PrivateKey := by
  have hck : certificateName ++ ".crt" ≠ certificateName ++ ".key" :=
    append_ne_of_ne_suffix certificateName (by decide)
  have hw : (clusterCertificatesPut pemOk true false true [] certificateName req).writes =
      [WStep.writeFile (certificateName ++ ".crt") req.PublicKey,
       WStep.writeFile (certificateName ++ ".key") req.PrivateKey] := by
    have := certPutLocal_writes pemOk true [] certificateName req hpub hpriv hname (Or.inl hca)
    rw [if_neg (by simp [hca])] at this
    simpa [clusterCertificatesPut] using this
  refine ⟨hw, ?_, ?_⟩
  · rw [hw]
    show List.lookup (certificateName ++ ".crt")
      ((certificateName ++ ".key", req.PrivateKey) ::
        List.filter (fun p => p.1 ≠ certificateName ++ ".key")
          ((certificateName ++ ".crt", req.PublicKey) ::
            List.filter (fun p => p.1 ≠ certificateName ++ ".crt") d)) =
      some req.PublicKey
    rw [List.lookup_cons]
    rw [beq_eq_false_iff_ne.mpr hck]
    rw [lookup_filter_ne _ _ hck]
    rw [List.lookup_cons]
    simp
  · rw [hw]
    show List.lookup (certificateName ++ ".key")
      ((certificateName ++ ".key", req.PrivateKey) :: _) = some req.PrivateKey
    rw [List.lookup_cons]
    simp

/-- C6 counterexample. The spec claims the keypair write is atomic, so a
mid-write failure leaves the prior on-disk keypair intact. It does not: at
the concrete request below, a fault during the first write (`os.WriteFile`
opens with `O_TRUNC`) leaves `cluster.crt` truncated to empty — neither the
prior nor the new certificate. -/
theorem c6_cert_put_not_atomic_counterexample :
    List.lookup "cluster.crt"
      (runWritesWithFault (some 0)
        (clusterCertificatesPut (fun _ => true) true false true [] "cluster"
          { PublicKey := "NEWCERT", PrivateKey := "NEWKEY", CA := "" }).writes
        [("cluster.crt", "OLDCERT"), ("cluster.key", "OLDKEY")]) = some "" ∧
    (some "" : Option String) ≠ some "OLDCERT" ∧
    (some "" : Option String) ≠ some "NEWCERT" := by
  refine ⟨?_, by decide, by decide⟩
  decide

/-! ## Witnesses -/

/-- Witness for C1 at a concrete one-member cluster and an ID change. -/
theorem c1_witness :
    (RecoverFromQuorumLoss wFS1 [wMemberBad]).1 = wFS1 ∧
    ∃ e, (RecoverFromQuorumLoss wFS1 [wMemberBad]).2 = .error e :=
  (c1_validate_member_changes wFS1 [wMemberOld] [wMemberBad] rfl).2 (by decide)

/-- Witness for C2 at a concrete `../foo` entry. -/
theorem c2_witness :
    ((unpackTarball "recovery_db.tar.gz" [wBadEntry]).2).isSome = true :=
  (c2_unpack_rejects_path_traversal "recovery_db.tar.gz" [wBadEntry]).1 (by decide)

/-- Witness for C9 at a concrete undersized entry. -/
theorem c9_witness :
    (unpackTarball "recovery_db.tar.gz" [wSizeEntry]).2 =
      some (sizeMismatchMsg 1 5 "cluster.yaml" "recovery_db.tar.gz") :=
  (c9_unpack_size_mismatch "recovery_db.tar.gz" [] [] wSizeEntry).2
    (by decide) (by decide) (by decide)

/-- Witness for C3 at a concrete three-file database directory. -/
theorem c3_witness :
    "info.yaml" ∉ (CreateRecoveryTarball wDbDir).2.map TarEntry.name :=
  (c3_create_recovery_tarball_excludes_info_yaml wDbDir (by decide)).1

/-- Witness for C4: the incoming node list only has ID 2, the local node has
ID 1. -/
theorem c4_witness :
    (MaybeUnpackRecoveryTarball wFS4).2 = some missingLocalMemberMsg ∧
    ((MaybeUnpackRecoveryTarball wFS4).1).databaseDir = wFS4.databaseDir :=
  c4_restore_requires_local_id wFS4 [wTar4] [wNode2] wNode rfl rfl rfl rfl (by decide)

/-- Witness for C5 at a concrete successful restore. -/
theorem c5_witness :
    ((MaybeUnpackRecoveryTarball wFS5).1).databaseDir.lookup "info.yaml" =
      wFS5.databaseDir.lookup "info.yaml" :=
  c5_restore_preserves_local_info_yaml wFS5 rfl

/-- Witness for C8: no-op without a tarball, and a successful restore leaves
no tarball, so the second run is a no-op. -/
theorem c8_witness :
    MaybeUnpackRecoveryTarball wFS8 = (wFS8, none) ∧
    ((MaybeUnpackRecoveryTarball wFS5).1).recoveryTarball = none ∧
    MaybeUnpackRecoveryTarball ((MaybeUnpackRecoveryTarball wFS5).1) =
      ((MaybeUnpackRecoveryTarball wFS5).1, none) :=
  ⟨(c8_unpack_idempotent wFS8).1 rfl, (c8_unpack_idempotent wFS5).2.1 rfl,
   (c8_unpack_idempotent wFS5).2.2 rfl⟩

/-- Witness for C7 at a concrete request: offline database and online
not-notification cases. -/
theorem c7_witness :
    ((clusterCertificatesPut (fun _ => true) false false true ["m2"] "cluster"
        wReq).warnedDbOffline = true ∧
      (clusterCertificatesPut (fun _ => true) false false true ["m2"] "cluster"
        wReq).forwardedTo = []) ∧
    (clusterCertificatesPut (fun _ => true) false true true ["m2"] "cluster"
      wReq).forwardedTo = ["m2"] ∧
    (clusterCertificatesPut (fun _ => true) false false true ["m2"] "cluster"
      wReq).writes =
      (if wReq.CA ≠ "" then [WStep.writeFile ("cluster" ++ ".ca") wReq.CA] else []) ++
        [WStep.writeFile ("cluster" ++ ".crt") wReq.PublicKey,
         WStep.writeFile ("cluster" ++ ".key") wReq.PrivateKey] :=
  ⟨(c7_cert_put_forwarding (fun _ => true) false false true ["m2"] "cluster" wReq).1 rfl,
   (c7_cert_put_forwarding (fun _ => true) false true true ["m2"] "cluster" wReq).2.1 rfl rfl,
   (c7_cert_put_forwarding (fun _ => true) false false true ["m2"] "cluster" wReq).2.2
     rfl rfl rfl (by decide) (Or.inl rfl)⟩

/-- Witness for the amended C6 at a concrete request over a prior state. -/
theorem c6_witness :
    (clusterCertificatesPut (fun _ => true) true false true [] "server" wReq).writes =
      [WStep.writeFile ("server" ++ ".crt") wReq.PublicKey,
       WStep.writeFile ("server" ++ ".key") wReq.PrivateKey] ∧
    List.lookup ("server" ++ ".crt")
      (runWritesWithFault none
        (clusterCertificatesPut (fun _ => true) true false true [] "server" wReq).writes
        [("server.crt", "OLD")]) = some wReq.PublicKey ∧
    List.lookup ("server" ++ ".key")
      (runWritesWithFault none
        (clusterCertificatesPut (fun _ => true) true false true [] "server" wReq).writes
        [("server.crt", "OLD")]) = some wReq.PrivateKey :=
  c6_cert_put_writes_in_place (fun _ => true) "server" wReq [("server.crt", "OLD")]
    rfl rfl (by decide) rfl

end Microcluster
